import Mathlib

/-!
Verification of the trivy-dashboard exporter's collection-and-publication
pipeline (src/exporter/main.go, the paginated "Optimized v3" variant).

The definitions below are a shallow embedding of the Go source: pure
functions mirror the Go functions, the unbounded `for` loop of
`collectResourcePaged` becomes a fuel-indexed recursion (every theorem
supplies enough fuel for the loop to reach its `break`), and the external
collaborators (the control-plane list API, the S3 client, the filesystem and
the process environment) are explicit parameters.
-/

namespace TrivyExporter

/-- An opaque report item as handled by the collector.  `enc = some s` means
the Go JSON encoder serializes the item to the string `s` (without the
trailing newline the encoder adds); `enc = none` means encoding the item
fails, in which case the collector logs a warning and skips it
(main.go 893-896). -/
structure Item where
  enc : Option String
  deriving DecidableEq, Repr

/-- Continuation token of the control-plane list API.  The Go code uses the
empty string for "no token"; the empty string is modelled as `none` and a
present token as `some offset`. -/
abbrev ContinueTok := Option Nat

/-- Result of one control-plane list call, as distinguished by the collector
(main.go 878-885): a page of items with a follow-up token, the
resource-not-found error ("could not find the requested resource"), or any
other failure. -/
inductive ListResult where
  | ok (items : List Item) (next : ContinueTok)
  | notFound
  | fail (msg : String)
  deriving DecidableEq, Repr

/-- The control plane as seen by the collector: a list request carries a
page-size limit and a continuation token (metav1.ListOptions). -/
abbrev ControlPlane := Int → ContinueTok → ListResult

/-- Model (from the spec, section 6) of a well-behaved control plane backed
by a fixed store of items: a list call returns up to `limit` items starting
at the token's offset, and a continuation token that is present iff items
remain. -/
def serverList (xs : List Item) (limit : Int) (tok : ContinueTok) :
    List Item × ContinueTok :=
  let off := tok.getD 0
  let page := (xs.drop off).take limit.toNat
  let next := if off + limit.toNat < xs.length then some (off + limit.toNat)
              else none
  (page, next)

/-- A control plane that serves pages from a fixed store and never errors. -/
def storePlane (xs : List Item) : ControlPlane :=
  fun limit tok =>
    let r := serverList xs limit tok
    ListResult.ok r.1 r.2

/-- The envelope header written to the scratch file before the pagination
loop (main.go 853-856). -/
def docHeader : String :=
  "\x7b\n  \"apiVersion\": \"aquasecurity.github.io/v1alpha1\",\n  \"items\": [\n"

/-- The envelope footer written after the loop (main.go 911-913). -/
def docFooter : String := "\n  ]\n\x7d"

/-- State of the JSON document being streamed to the scratch file: the
accumulated bytes, the `firstItem` flag and the running item count
(main.go 866-870). -/
structure EmitSt where
  body : String
  firstItem : Bool
  totalCount : Nat
  deriving DecidableEq, Repr

/-- One iteration of the inner loop of `collectResourcePaged`
(main.go 887-899): a separating comma is written whenever `firstItem` is
false, before encoding is attempted; an item that fails to encode is then
skipped (the comma, if any, has already been written).  The Go JSON encoder
appends a newline after each encoded value. -/
def emitItem (st : EmitSt) (it : Item) : EmitSt :=
  let st1 := if st.firstItem then st else { st with body := st.body ++ "," }
  match it.enc with
  | none => st1
  | some s =>
    { body := st1.body ++ s ++ "\n", firstItem := false,
      totalCount := st1.totalCount + 1 }

/-- The inner `for _, item := range list.Items` loop over one page. -/
def emitItems (st : EmitSt) (page : List Item) : EmitSt :=
  page.foldl emitItem st

/-- State threaded through the pagination loop.  `requests` records every
list request issued (its limit and continuation token) and `retrieved` every
item iterated over, so that the loop's observable interaction with the
control plane can be stated. -/
structure PageLoopSt where
  emit : EmitSt
  requests : List (Int × ContinueTok)
  retrieved : List Item
  deriving DecidableEq, Repr

/-- How the pagination loop exited: normal `break` on an empty token,
early `return 0, nil` on resource-not-found, early error return, or fuel
exhaustion (an artifact of the embedding; the Go loop is unbounded). -/
inductive LoopExit where
  | finished (st : PageLoopSt)
  | earlyZero (st : PageLoopSt)
  | failed (st : PageLoopSt) (msg : String)
  | outOfFuel (st : PageLoopSt)
  deriving DecidableEq, Repr

/-- The loop state carried by an exit. -/
def exitState : LoopExit → PageLoopSt
  | LoopExit.finished st => st
  | LoopExit.earlyZero st => st
  | LoopExit.failed st _ => st
  | LoopExit.outOfFuel st => st

/-- The pagination loop of `collectResourcePaged` (main.go 872-908): issue a
list request bounded by `limit` and the current token; on resource-not-found
return zero-and-no-error, on any other error return a failure, otherwise
emit the page's items and continue until the returned token is empty. -/
def pagedLoop (plane : ControlPlane) (limit : Int) :
    Nat → ContinueTok → PageLoopSt → LoopExit
  | 0, _, st => LoopExit.outOfFuel st
  | fuel + 1, tok, st =>
    let st1 : PageLoopSt := { st with requests := st.requests ++ [(limit, tok)] }
    match plane limit tok with
    | ListResult.notFound => LoopExit.earlyZero st1
    | ListResult.fail msg => LoopExit.failed st1 msg
    | ListResult.ok items next =>
      let st2 : PageLoopSt :=
        { st1 with emit := emitItems st1.emit items,
                   retrieved := st1.retrieved ++ items }
      match next with
      | none => LoopExit.finished st2
      | some o => pagedLoop plane limit fuel (some o) st2

/-- Per-resource environment of one `collectResourcePaged` call: the control
plane, the loop fuel, the configured page size, and the behaviour of the two
sink destinations.  `s3Enabled` models `s3Client != nil` and `fsEnabled`
models `cfg.FSOutputDir != ""`; `s3Put` and `fsWrite` give the result the
corresponding write returns when it is attempted. -/
structure CollectEnv where
  plane : ControlPlane
  fuel : Nat
  pageSize : Int
  s3Enabled : Bool
  s3Put : Except String Unit
  fsEnabled : Bool
  fsWrite : Except String Unit

/-- Observable outcome of one `collectResourcePaged` call: the returned
count-or-error, which sink writes were attempted, the bytes committed to
each sink, and the loop's interaction record. -/
structure CollectOutcome where
  result : Except String Nat
  s3Attempted : Bool
  s3Written : Option String
  fsAttempted : Bool
  fsWritten : Option String
  requests : List (Int × ContinueTok)
  retrieved : List Item

/-- Effective page-size limit of the loop (main.go 862-865): a non-positive
configured page size is replaced by 20 before the first request. -/
def effLimit (pageSize : Int) : Int := if pageSize ≤ 0 then 20 else pageSize

/-- The filesystem half of the sink phase (main.go 937-964): attempted only
after the S3 upload succeeded or was disabled; a failure is returned as the
resource's error (the S3 object, if any, stays written). -/
def fsPhase (env : CollectEnv) (doc : String) (count : Nat)
    (s3att : Bool) (s3w : Option String) (st : PageLoopSt) : CollectOutcome :=
  if env.fsEnabled then
    match env.fsWrite with
    | Except.error e =>
      { result := Except.error ("failed to write FS output: " ++ e),
        s3Attempted := s3att, s3Written := s3w,
        fsAttempted := true, fsWritten := none,
        requests := st.requests, retrieved := st.retrieved }
    | Except.ok _ =>
      { result := Except.ok count,
        s3Attempted := s3att, s3Written := s3w,
        fsAttempted := true, fsWritten := some doc,
        requests := st.requests, retrieved := st.retrieved }
  else
    { result := Except.ok count,
      s3Attempted := s3att, s3Written := s3w,
      fsAttempted := false, fsWritten := none,
      requests := st.requests, retrieved := st.retrieved }

/-- The sink phase of `collectResourcePaged` (main.go 925-964): the S3
upload comes first when enabled, and a failure there returns immediately —
the filesystem write is then never attempted. -/
def sinkPhase (env : CollectEnv) (name : String) (doc : String) (count : Nat)
    (st : PageLoopSt) : CollectOutcome :=
  if env.s3Enabled then
    match env.s3Put with
    | Except.error e =>
      { result := Except.error ("failed to upload latest " ++ name ++ ": " ++ e),
        s3Attempted := true, s3Written := none,
        fsAttempted := false, fsWritten := none,
        requests := st.requests, retrieved := st.retrieved }
    | Except.ok _ => fsPhase env doc count true (some doc) st
  else fsPhase env doc count false none st

/-- The loop state at entry: the header has been written to the scratch
file, no item has been emitted yet. -/
def initLoopSt : PageLoopSt :=
  { emit := { body := docHeader, firstItem := true, totalCount := 0 },
    requests := [], retrieved := [] }

/-- `collectResourcePaged` (main.go 833-967): stream the paged items of one
resource into the scratch document and hand it to the configured sinks.
`timestamp` is a parameter of the Go function that the body of this variant
does not use (timestamped snapshots are disabled).  On resource-not-found
the function returns count 0 and no error without writing to any sink; on a
list failure it returns an error naming the resource.  Scratch-file I/O
itself is modelled as infallible. -/
def collectResourcePaged (env : CollectEnv) (name : String)
    (timestamp : String) : CollectOutcome :=
  let limit := effLimit env.pageSize
  match pagedLoop env.plane limit env.fuel none initLoopSt with
  | LoopExit.outOfFuel st =>
    { result := Except.error "loop fuel exhausted", s3Attempted := false,
      s3Written := none, fsAttempted := false, fsWritten := none,
      requests := st.requests, retrieved := st.retrieved }
  | LoopExit.earlyZero st =>
    { result := Except.ok 0, s3Attempted := false, s3Written := none,
      fsAttempted := false, fsWritten := none,
      requests := st.requests, retrieved := st.retrieved }
  | LoopExit.failed st msg =>
    { result := Except.error ("failed to list " ++ name ++ ": " ++ msg),
      s3Attempted := false, s3Written := none,
      fsAttempted := false, fsWritten := none,
      requests := st.requests, retrieved := st.retrieved }
  | LoopExit.finished st =>
    sinkPhase env name (st.emit.body ++ docFooter) st.emit.totalCount st

/-- A full collector run against a store of `xs` items, with enough fuel for
the pagination loop to terminate on its own. -/
def collectFromStore (xs : List Item) (pageSize : Int) (s3e : Bool)
    (s3p : Except String Unit) (fse : Bool) (fsw : Except String Unit)
    (name timestamp : String) : CollectOutcome :=
  collectResourcePaged
    { plane := storePlane xs, fuel := xs.length + 1, pageSize := pageSize,
      s3Enabled := s3e, s3Put := s3p, fsEnabled := fse, fsWrite := fsw }
    name timestamp

/-- A report-resource descriptor (main.go 610-614). -/
structure ReportResource where
  Name : String
  Kind : String
  FileName : String
  deriving DecidableEq, Repr

/-- The resource catalog (main.go 618-627); the SBOM report kinds are
disabled in this variant. -/
def reportResources : List ReportResource :=
  [ { Name := "vulnerabilityreports", Kind := "VulnerabilityReport",
      FileName := "vulnerability-reports" },
    { Name := "configauditreports", Kind := "ConfigAuditReport",
      FileName := "config-audit-reports" },
    { Name := "clusterconfigauditreports", Kind := "ClusterConfigAuditReport",
      FileName := "cluster-config-audit-reports" },
    { Name := "clusterrbacassessmentreports", Kind := "ClusterRbacAssessmentReport",
      FileName := "cluster-rbac-assessment-reports" },
    { Name := "exposedsecretreports", Kind := "ExposedSecretReport",
      FileName := "exposed-secret-reports" },
    { Name := "clustercompliancereports", Kind := "ClusterComplianceReport",
      FileName := "cluster-compliance-reports" },
    { Name := "clustervulnerabilityreports", Kind := "ClusterVulnerabilityReport",
      FileName := "cluster-vulnerability-reports" },
    { Name := "rbacassessmentreports", Kind := "RbacAssessmentReport",
      FileName := "rbac-assessment-reports" } ]

/-- `getReportTypeNames` (main.go 824-830). -/
def getReportTypeNames : List String :=
  reportResources.map (fun r => r.Name)

/-- The cluster index document (main.go 793-797). -/
structure ClusterIndex where
  cluster : String
  lastUpdated : String
  collectionStats : List (String × Nat)
  deriving DecidableEq, Repr

/-- Observable outcome of one orchestrator cycle: the per-resource collector
outcomes in catalog order, the published index, and the cycle's return
value. -/
structure CycleOut where
  outcomes : List (String × CollectOutcome)
  index : ClusterIndex
  result : Except String Unit

/-- `collectAndUploadAll` (main.go 756-822): one full cycle.  `envOf` gives
each resource its control-plane and sink environment; `now` is the
wall-clock reading that becomes the index's lastUpdated field.  A failed
resource is logged and skipped — its count is not recorded — and the cycle
itself returns without error (the metadata marshal at main.go 783 cannot
fail for this value and is modelled as infallible; index upload failures are
only logged). -/
def collectAndUploadAll (envOf : ReportResource → CollectEnv)
    (cluster : String) (timestamp now : String) : CycleOut :=
  let outs := reportResources.map
    (fun r => (r.Name, collectResourcePaged (envOf r) r.Name timestamp))
  let stats := outs.filterMap
    (fun p => match p.2.result with
      | Except.ok c => some (p.1, c)
      | Except.error _ => none)
  { outcomes := outs,
    index := { cluster := cluster, lastUpdated := now,
               collectionStats := stats },
    result := Except.ok () }

/-- The process environment; os.Getenv returns "" for unset variables. -/
structure GoEnv where
  get : String → String

/-- `getEnv` (main.go 732-737). -/
def getEnv (env : GoEnv) (key defaultValue : String) : String :=
  if env.get key ≠ "" then env.get key else defaultValue

/-- Value of a digit string, most significant first. -/
def digitsVal (ds : List Char) : Int :=
  ds.foldl (fun a c => a * 10 + Int.ofNat (c.toNat - 48)) 0

/-- Modelled from the Go standard library: strconv.Atoi (overflow is not
modelled) — an optional sign followed by at least one digit. -/
def atoi (s : String) : Option Int :=
  let cs := s.data
  let sign : Int := match cs with
    | c :: _ => if c = '-' then -1 else 1
    | [] => 1
  let ds := match cs with
    | c :: rest => if c = '-' ∨ c = '+' then rest else cs
    | [] => []
  if ds = [] ∨ ¬ ds.all Char.isDigit then none
  else some (sign * digitsVal ds)

/-- `parseInt` (main.go 748-754): only unparsable values fall back to the
default; parsable non-positive values are returned as-is. -/
def parseInt (s : String) (defaultVal : Int) : Int :=
  match atoi s with
  | none => defaultVal
  | some v => v

/-- Nanoseconds per duration unit.  Modelled from the Go standard library
time.ParseDuration unit table (the micro-sign aliases are omitted). -/
def durUnitNs (u : String) : Option Int :=
  if u = "ns" then some 1
  else if u = "us" then some 1000
  else if u = "ms" then some 1000000
  else if u = "s" then some 1000000000
  else if u = "m" then some 60000000000
  else if u = "h" then some 3600000000000
  else none

/-- One pass of duration segments: digits followed by a unit, repeated. -/
def durSegs : Nat → List Char → Option Int
  | 0, _ => none
  | _, [] => some 0
  | fuel + 1, cs =>
    let ds := cs.takeWhile Char.isDigit
    let rest := cs.dropWhile Char.isDigit
    if ds = [] then none
    else
      let us := rest.takeWhile (fun c => ¬ c.isDigit)
      let rest2 := rest.dropWhile (fun c => ¬ c.isDigit)
      match durUnitNs (String.mk us) with
      | none => none
      | some m =>
        match durSegs fuel rest2 with
        | none => none
        | some acc => some (digitsVal ds * m + acc)

/-- Modelled from the Go standard library: time.ParseDuration, restricted to
an optional sign and integer segments with unit suffixes (fractions and the
micro-sign units are not modelled; "0" is accepted without a unit).  Returns
nanoseconds. -/
def goParseDuration (s : String) : Option Int :=
  let cs := s.data
  let sign : Int := match cs with
    | c :: _ => if c = '-' then -1 else 1
    | [] => 1
  let cs1 := match cs with
    | c :: rest => if c = '-' ∨ c = '+' then rest else cs
    | [] => []
  if cs1 = [] then none
  else if cs1 = ['0'] then some 0
  else match durSegs (cs1.length + 1) cs1 with
    | none => none
    | some v => some (sign * v)

/-- `parseDuration` (main.go 739-746): invalid strings fall back to
5 minutes (300000000000 ns). -/
def parseDuration (s : String) : Int :=
  match goParseDuration s with
  | none => 300000000000
  | some d => d

/-- `Config` (main.go 599-607).  SyncInterval is in nanoseconds.  The field
written `S3KeyBase` here is named after the S3 path base; in the source it
is the field holding the value of the S3 path-base environment variable. -/
structure Config where
  ClusterName : String
  S3Bucket : String
  S3KeyBase : String
  AWSRegion : String
  SyncInterval : Int
  PageSize : Int
  FSOutputDir : String
  deriving DecidableEq, Repr

/-- `loadConfig` (main.go 714-730): `none` models the fatal log.Fatal exit
taken exactly when neither sink is configured. -/
def loadConfig (env : GoEnv) : Option Config :=
  let cfg : Config :=
    { ClusterName := getEnv env "CLUSTER_NAME" "dev",
      S3Bucket := getEnv env "S3_BUCKET" "",
      S3KeyBase := getEnv env "S3_PREFIX" "vuln",
      AWSRegion := getEnv env "AWS_REGION" "eu-west-1",
      SyncInterval := parseDuration (getEnv env "SYNC_INTERVAL" "5m"),
      PageSize := parseInt (getEnv env "PAGE_SIZE" "20") 20,
      FSOutputDir := getEnv env "FS_OUTPUT_DIR" "" }
  if cfg.S3Bucket = "" ∧ cfg.FSOutputDir = "" then none else some cfg

/-- One observable event of the scheduler's select loop (main.go 697-711):
a ticker tick, a termination signal, or cancellation of the governing
context. -/
inductive SchedEvent where
  | tick
  | signal
  | ctxDone
  deriving DecidableEq, Repr

/-- Whether an event is a ticker tick. -/
def isTick : SchedEvent → Bool
  | SchedEvent.tick => true
  | _ => false

/-- The select loop of `main` (main.go 697-712): each tick runs exactly one
cycle, synchronously, whose error is only logged; a signal or context
cancellation returns from `main` without starting another cycle.  The
result is the sequence of cycle numbers the loop runs, in order. -/
def schedLoop (outcome : Nat → Except String Unit) (k : Nat) :
    List SchedEvent → List Nat
  | [] => []
  | SchedEvent.tick :: es =>
    let _ := outcome k
    k :: schedLoop outcome (k + 1) es
  | SchedEvent.signal :: _ => []
  | SchedEvent.ctxDone :: _ => []

/-- `main`'s cycle schedule (main.go 685-712): one synchronous initial
cycle (number 0) whose error is only logged, then the ticker loop. -/
def schedulerCycles (outcome : Nat → Except String Unit)
    (events : List SchedEvent) : List Nat :=
  let _ := outcome 0
  0 :: schedLoop outcome 1 events

/-- The opening-brace character, for the JSON checker. -/
def lbrace : Char := Char.ofNat 123

/-- The closing-brace character, for the JSON checker. -/
def rbrace : Char := Char.ofNat 125

/-- Skip JSON whitespace. -/
def skipWs : List Char → List Char
  | [] => []
  | c :: cs =>
    if c = ' ' ∨ c = '\n' ∨ c = '\t' ∨ c = '\r' then skipWs cs else c :: cs

/-- Scan a JSON string body after the opening quote; a backslash escapes the
next character. -/
def jstring : List Char → Option (List Char)
  | [] => none
  | c :: cs =>
    if c = '"' then some cs
    else if c = '\\' then
      match cs with
      | [] => none
      | _ :: cs2 => jstring cs2
    else jstring cs

/-- Strip an expected literal tail such as "rue" of "true". -/
def stripLit : List Char → List Char → Option (List Char)
  | [], cs => some cs
  | _ :: _, [] => none
  | l :: ls, c :: cs => if c = l then stripLit ls cs else none

/-- Characters that may continue a JSON number. -/
def numChar (c : Char) : Bool :=
  c.isDigit || c = '-' || c = '+' || c = '.' || c = 'e' || c = 'E'

/-- Parsing mode of the JSON checker. -/
inductive JMode where
  | val
  | arrStart
  | arrTail
  | objStart
  | member
  | objTail
  deriving Repr

/-- A small recursive-descent JSON syntax checker (grammar of one JSON
value); returns the unconsumed remainder on success.  The fuel bounds the
recursion depth. -/
def jsonStep : Nat → JMode → List Char → Option (List Char)
  | 0, _, _ => none
  | fuel + 1, m, cs0 =>
    let cs := skipWs cs0
    match m with
    | JMode.val =>
      match cs with
      | [] => none
      | c :: rest =>
        if c = '"' then jstring rest
        else if c = '[' then jsonStep fuel JMode.arrStart rest
        else if c = lbrace then jsonStep fuel JMode.objStart rest
        else if c = 't' then stripLit ['r', 'u', 'e'] rest
        else if c = 'f' then stripLit ['a', 'l', 's', 'e'] rest
        else if c = 'n' then stripLit ['u', 'l', 'l'] rest
        else if c.isDigit ∨ c = '-' then some (rest.dropWhile numChar)
        else none
    | JMode.arrStart =>
      match cs with
      | ']' :: rest => some rest
      | _ =>
        match jsonStep fuel JMode.val cs with
        | none => none
        | some r1 => jsonStep fuel JMode.arrTail r1
    | JMode.arrTail =>
      match cs with
      | ']' :: rest => some rest
      | ',' :: rest =>
        match jsonStep fuel JMode.val rest with
        | none => none
        | some r1 => jsonStep fuel JMode.arrTail r1
      | _ => none
    | JMode.objStart =>
      match cs with
      | [] => none
      | c :: rest =>
        if c = rbrace then some rest
        else
          match jsonStep fuel JMode.member cs with
          | none => none
          | some r1 => jsonStep fuel JMode.objTail r1
    | JMode.member =>
      match cs with
      | c :: rest =>
        if c = '"' then
          match jstring rest with
          | none => none
          | some r1 =>
            match skipWs r1 with
            | ':' :: r2 => jsonStep fuel JMode.val r2
            | _ => none
        else none
      | [] => none
    | JMode.objTail =>
      match cs with
      | [] => none
      | c :: rest =>
        if c = rbrace then some rest
        else if c = ',' then
          match jsonStep fuel JMode.member rest with
          | none => none
          | some r1 => jsonStep fuel JMode.objTail r1
        else none

/-- A document is well-formed JSON when the whole string parses as a single
JSON value followed only by whitespace. -/
def jsonOk (s : String) : Bool :=
  match jsonStep (2 * s.length + 8) JMode.val s.data with
  | none => false
  | some rest => (skipWs rest).isEmpty

/-- A control plane that answers every request with resource-not-found. -/
def notFoundPlane : ControlPlane := fun _ _ => ListResult.notFound

/-- A control plane that answers every request with a non-not-found error. -/
def failPlane (msg : String) : ControlPlane := fun _ _ => ListResult.fail msg

/-- A control plane that serves one page of items and then reports the
resource as not found on the continuation request. -/
def midNotFoundPlane (page1 : List Item) (k : Nat) : ControlPlane :=
  fun _ tok =>
    match tok with
    | none => ListResult.ok page1 (some k)
    | some _ => ListResult.notFound

/-- A collector environment with the default page size, no S3 sink and a
healthy filesystem sink, used to instantiate theorems on concrete planes. -/
def testEnv (plane : ControlPlane) (fuel : Nat) : CollectEnv :=
  { plane := plane, fuel := fuel, pageSize := 20, s3Enabled := false,
    s3Put := Except.ok (), fsEnabled := true, fsWrite := Except.ok () }

/-- Three items that all encode, for concrete pagination runs. -/
def c1items : List Item := [⟨some "1"⟩, ⟨some "2"⟩, ⟨some "3"⟩]

/-- A source whose middle item fails to encode. -/
def c2items : List Item := [⟨some "1"⟩, ⟨none⟩, ⟨some "2"⟩]

/-- The same source with only the items that encode. -/
def c2good : List Item := [⟨some "1"⟩, ⟨some "2"⟩]

/-- An environment with both sinks configured in which the S3 upload
fails. -/
def c3env : CollectEnv :=
  { plane := storePlane [⟨some "1"⟩], fuel := 2, pageSize := 20,
    s3Enabled := true, s3Put := Except.error "boom",
    fsEnabled := true, fsWrite := Except.ok () }

/-- An environment with only the filesystem sink, whose write fails. -/
def c3envFsFail : CollectEnv :=
  { plane := storePlane [], fuel := 1, pageSize := 20,
    s3Enabled := false, s3Put := Except.ok (),
    fsEnabled := true, fsWrite := Except.error "disk full" }

/-- The first catalog entry, for concrete orchestrator runs. -/
def resVuln : ReportResource :=
  { Name := "vulnerabilityreports", Kind := "VulnerabilityReport",
    FileName := "vulnerability-reports" }

/-- An environment with no configured sink variables. -/
def envNoSink : GoEnv := ⟨fun _ => ""⟩

/-- An environment configuring only the filesystem sink. -/
def envFsOnly : GoEnv := ⟨fun k => if k = "FS_OUTPUT_DIR" then "/data" else ""⟩

/-- The configuration `loadConfig` produces for `envFsOnly`. -/
def cfgFsOnly : Config :=
  { ClusterName := "dev", S3Bucket := "", S3KeyBase := "vuln",
    AWSRegion := "eu-west-1", SyncInterval := 300000000000,
    PageSize := 20, FSOutputDir := "/data" }

/-- An environment whose control plane serves one page and then reports the
resource as not found on the continuation request. -/
def midEnv (page1 : List Item) (k fuel : Nat) (ps : Int) (s3e : Bool)
    (s3p : Except String Unit) (fse : Bool) (fsw : Except String Unit) :
    CollectEnv :=
  { plane := midNotFoundPlane page1 k, fuel := fuel + 2, pageSize := ps,
    s3Enabled := s3e, s3Put := s3p, fsEnabled := fse, fsWrite := fsw }

section Theorems

/-- Emitting a concatenation of pages is emitting one page after the
other. -/
theorem emitItems_append (st : EmitSt) (a b : List Item) :
    emitItems st (a ++ b) = emitItems (emitItems st a) b :=
  List.foldl_append ..

/-- The sink phase only consumes the loop state's request record. -/
theorem fsPhase_requests (env : CollectEnv) (doc : String) (count : Nat)
    (s3att : Bool) (s3w : Option String) (st : PageLoopSt) :
    (fsPhase env doc count s3att s3w st).requests = st.requests := by
  unfold fsPhase
  split
  · split <;> rfl
  · rfl

/-- The sink phase only consumes the loop state's retrieved-item record. -/
theorem fsPhase_retrieved (env : CollectEnv) (doc : String) (count : Nat)
    (s3att : Bool) (s3w : Option String) (st : PageLoopSt) :
    (fsPhase env doc count s3att s3w st).retrieved = st.retrieved := by
  unfold fsPhase
  split
  · split <;> rfl
  · rfl

theorem sinkPhase_requests (env : CollectEnv) (name doc : String)
    (count : Nat) (st : PageLoopSt) :
    (sinkPhase env name doc count st).requests = st.requests := by
  unfold sinkPhase
  split
  · split
    · rfl
    · exact fsPhase_requests ..
  · exact fsPhase_requests ..

theorem sinkPhase_retrieved (env : CollectEnv) (name doc : String)
    (count : Nat) (st : PageLoopSt) :
    (sinkPhase env name doc count st).retrieved = st.retrieved := by
  unfold sinkPhase
  split
  · split
    · rfl
    · exact fsPhase_retrieved ..
  · exact fsPhase_retrieved ..

/-- The collector's request record is the pagination loop's request
record, whatever way the loop exited. -/
theorem collect_requests (env : CollectEnv) (name ts : String) :
    (collectResourcePaged env name ts).requests =
      (exitState (pagedLoop env.plane (effLimit env.pageSize) env.fuel none
        initLoopSt)).requests := by
  unfold collectResourcePaged
  cases h : pagedLoop env.plane (effLimit env.pageSize) env.fuel none initLoopSt <;>
    simp only [h, exitState, sinkPhase_requests]

/-- The collector's retrieved-item record is the pagination loop's. -/
theorem collect_retrieved (env : CollectEnv) (name ts : String) :
    (collectResourcePaged env name ts).retrieved =
      (exitState (pagedLoop env.plane (effLimit env.pageSize) env.fuel none
        initLoopSt)).retrieved := by
  unfold collectResourcePaged
  cases h : pagedLoop env.plane (effLimit env.pageSize) env.fuel none initLoopSt <;>
    simp only [h, exitState, sinkPhase_retrieved]

/-- Behaviour of the pagination loop against a store-backed control plane:
with positive limit `p` and enough fuel the loop finishes, having emitted
and retrieved exactly the items from the token's offset on, and having
issued `(remaining - 1) / p + 1` list requests, each with limit `p`. -/
theorem pagedLoop_store (xs : List Item) (p : Nat) (hp : 0 < p) :
    ∀ fuel tok st, xs.length - tok.getD 0 < fuel →
    ∃ reqs : List (Int × ContinueTok),
      pagedLoop (storePlane xs) (Int.ofNat p) fuel tok st =
        LoopExit.finished
          { emit := emitItems st.emit (xs.drop (tok.getD 0)),
            requests := st.requests ++ reqs,
            retrieved := st.retrieved ++ xs.drop (tok.getD 0) } ∧
      reqs.length = (xs.length - tok.getD 0 - 1) / p + 1 ∧
      ∀ r ∈ reqs, r.1 = Int.ofNat p := by
  intro fuel
  induction fuel with
  | zero => intro tok st h; omega
  | succ fuel ih =>
    intro tok st h
    have htn : (Int.ofNat p).toNat = p := Int.toNat_ofNat p
    by_cases hlt : tok.getD 0 + p < xs.length
    · have hrec := ih (some (tok.getD 0 + p))
        { emit := emitItems st.emit ((xs.drop (tok.getD 0)).take p),
          requests := st.requests ++ [(Int.ofNat p, tok)],
          retrieved := st.retrieved ++ (xs.drop (tok.getD 0)).take p }
        (by simp only [Option.getD_some]; omega)
      obtain ⟨reqs', heq, hlen, hmem⟩ := hrec
      refine ⟨(Int.ofNat p, tok) :: reqs', ?_, ?_, ?_⟩
      · simp only [pagedLoop, storePlane, serverList, htn, if_pos hlt]
        rw [heq]
        simp only [Option.getD_some, LoopExit.finished.injEq, PageLoopSt.mk.injEq]
        have hdd : xs.drop (tok.getD 0 + p) = (xs.drop (tok.getD 0)).drop p := by
          rw [List.drop_drop, Nat.add_comm]
        have hsplit : (xs.drop (tok.getD 0)).take p ++ xs.drop (tok.getD 0 + p) =
            xs.drop (tok.getD 0) := by
          rw [hdd, List.take_append_drop]
        refine ⟨?_, ?_, ?_⟩
        · rw [hdd, ← emitItems_append, List.take_append_drop]
        · simp [List.append_assoc]
        · rw [List.append_assoc, hsplit]
      · simp only [List.length_cons, hlen, Option.getD_some]
        have h1 : xs.length - tok.getD 0 - 1 = (xs.length - tok.getD 0 - p - 1) + p := by
          omega
        have h2 : xs.length - (tok.getD 0 + p) - 1 = xs.length - tok.getD 0 - p - 1 := by
          omega
        rw [h1, h2, Nat.add_div_right _ hp]
      · intro r hr
        rcases List.mem_cons.mp hr with h1 | h1
        · rw [h1]
        · exact hmem r h1
    · refine ⟨[(Int.ofNat p, tok)], ?_, ?_, ?_⟩
      · have hnext : ¬ (tok.getD 0 + (Int.ofNat p).toNat < xs.length) := by
          rw [htn]; exact hlt
        simp only [pagedLoop, storePlane, serverList, htn, if_neg hlt]
        have hall : (xs.drop (tok.getD 0)).take p = xs.drop (tok.getD 0) := by
          apply List.take_of_length_le
          simp only [List.length_drop]
          omega
        rw [hall]
      · simp only [List.length_singleton]
        have : xs.length - tok.getD 0 - 1 < p := by omega
        rw [Nat.div_eq_of_lt this]
      · intro r hr
        rcases List.mem_singleton.mp hr with h1
        rw [h1]

/-- Every request the pagination loop issues carries the loop's limit,
whatever the control plane answers and however the loop exits. -/
theorem pagedLoop_limits (plane : ControlPlane) (limit : Int) :
    ∀ fuel tok st, (∀ r ∈ st.requests, r.1 = limit) →
    ∀ r ∈ (exitState (pagedLoop plane limit fuel tok st)).requests, r.1 = limit := by
  intro fuel
  induction fuel with
  | zero => intro tok st hst; simpa [pagedLoop, exitState] using hst
  | succ fuel ih =>
    intro tok st hst
    have hst1 : ∀ r ∈ st.requests ++ [(limit, tok)], r.1 = limit := by
      intro r hr
      rcases List.mem_append.mp hr with h1 | h1
      · exact hst r h1
      · rw [List.mem_singleton.mp h1]
    simp only [pagedLoop]
    cases hp : plane limit tok with
    | notFound => simpa [exitState] using hst1
    | fail msg => simpa [exitState] using hst1
    | ok items next =>
      cases next with
      | none => simpa [exitState] using hst1
      | some o =>
        simp only
        exact ih (some o) _ hst1

/-- Claim C1: against a source holding N items and for every page size
P ≥ 1, the pagination loop of `collectResourcePaged` retrieves exactly the
N source items, in order, with no duplicates and no omissions (each list
request carries the limit and the current continuation token, and the loop
stops at the first empty token), and it issues exactly ceil(N/P) list
requests, or 1 when N = 0. -/
theorem claim1_pagination_exact (xs : List Item) (P : Nat) (hP : 1 ≤ P)
    (s3e : Bool) (s3p : Except String Unit) (fse : Bool)
    (fsw : Except String Unit) (name ts : String) :
    (collectFromStore xs (Int.ofNat P) s3e s3p fse fsw name ts).retrieved = xs ∧
    (collectFromStore xs (Int.ofNat P) s3e s3p fse fsw name ts).requests.length =
      (if xs.length = 0 then 1 else (xs.length + P - 1) / P) := by
  have hP0 : 0 < P := hP
  obtain ⟨reqs, heq, hlen, _⟩ :=
    pagedLoop_store xs P hP0 (xs.length + 1) none initLoopSt
      (by simp only [Option.getD_none]; omega)
  have heff : effLimit (Int.ofNat P) = Int.ofNat P := by
    unfold effLimit
    rw [if_neg]
    simp only [Int.ofNat_eq_coe]
    omega
  have hout : collectFromStore xs (Int.ofNat P) s3e s3p fse fsw name ts =
      collectResourcePaged
        { plane := storePlane xs, fuel := xs.length + 1,
          pageSize := Int.ofNat P, s3Enabled := s3e, s3Put := s3p,
          fsEnabled := fse, fsWrite := fsw } name ts := rfl
  rw [hout]
  unfold collectResourcePaged
  simp only [heff, heq, sinkPhase_requests, sinkPhase_retrieved]
  constructor
  · simp [initLoopSt]
  · simp only [initLoopSt, List.nil_append, List.length_nil, Option.getD_none]
    rw [hlen]
    simp only [Option.getD_none]
    by_cases hn : xs.length = 0
    · simp [hn, Nat.div_eq_of_lt hP0]
    · rw [if_neg hn]
      have h1 : xs.length + P - 1 = (xs.length - 0 - 1) + P := by omega
      rw [h1, Nat.add_div_right _ hP0]

/-- Witness for C1: three items with page size two give back the three
items in two list calls. -/
theorem claim1_pagination_exact_witness :
    1 ≤ 2 ∧
    ((collectFromStore c1items (Int.ofNat 2) false (Except.ok ()) true
        (Except.ok ()) "vulnerabilityreports" "t").retrieved = c1items ∧
     (collectFromStore c1items (Int.ofNat 2) false (Except.ok ()) true
        (Except.ok ()) "vulnerabilityreports" "t").requests.length =
      (if c1items.length = 0 then 1 else (c1items.length + 2 - 1) / 2)) :=
  ⟨by decide,
   claim1_pagination_exact c1items 2 (by decide) false (Except.ok ()) true
     (Except.ok ()) "vulnerabilityreports" "t"⟩

/-- Claim C9: environment parsing permits a zero or negative page size
(only unparsable values fall back to the default), but the collector
replaces any non-positive configured page size by 20 before the pagination
loop, so every list request it issues carries that positive limit. -/
theorem claim9_limit_positive (env : CollectEnv) (name ts : String) :
    parseInt "0" 20 = 0 ∧ parseInt "-7" 20 = -7 ∧
    (env.pageSize ≤ 0 → effLimit env.pageSize = 20) ∧
    0 < effLimit env.pageSize ∧
    (∀ r ∈ (collectResourcePaged env name ts).requests,
      r.1 = effLimit env.pageSize ∧ 0 < r.1) := by
  refine ⟨by decide, by decide, ?_, ?_, ?_⟩
  · intro h
    unfold effLimit
    rw [if_pos h]
  · unfold effLimit
    split
    · decide
    · omega
  · intro r hr
    rw [collect_requests env name ts] at hr
    have hlim := pagedLoop_limits env.plane (effLimit env.pageSize) env.fuel
      none initLoopSt (by intro r hr; simp [initLoopSt] at hr) r hr
    refine ⟨hlim, ?_⟩
    rw [hlim]
    unfold effLimit
    split
    · decide
    · omega

/-- Witness for C9: a concrete run with page size 20 issues a first request
whose limit is the positive effective limit. -/
theorem claim9_limit_positive_witness :
    ((20 : Int), (none : ContinueTok)) ∈
      (collectResourcePaged (testEnv (storePlane c1items) 4) "r" "t").requests ∧
    ((20 : Int), (none : ContinueTok)).1 =
      effLimit (testEnv (storePlane c1items) 4).pageSize ∧
    (0 : Int) < ((20 : Int), (none : ContinueTok)).1 :=
  ⟨by decide,
   (claim9_limit_positive (testEnv (storePlane c1items) 4) "r" "t").2.2.2.2
     ((20 : Int), (none : ContinueTok)) (by decide)⟩

/-- Claim C2 (code bug): the collector writes the separating comma before
attempting to encode each item after the first successful one, so an item
that fails to encode mid-list leaves a dangling comma and the persisted
document is NOT well-formed JSON.  The count still equals the number of
successfully encoded items and the resource's collection is not aborted;
with no mid-list encode failure the document is well-formed. -/
theorem claim2_malformed_on_encode_failure :
    (collectFromStore c2items 20 false (Except.ok ()) true (Except.ok ())
      "vulnerabilityreports" "t").result = Except.ok 2 ∧
    Option.map jsonOk (collectFromStore c2items 20 false (Except.ok ()) true
      (Except.ok ()) "vulnerabilityreports" "t").fsWritten = some false ∧
    (collectFromStore c2good 20 false (Except.ok ()) true (Except.ok ())
      "vulnerabilityreports" "t").result = Except.ok 2 ∧
    Option.map jsonOk (collectFromStore c2good 20 false (Except.ok ()) true
      (Except.ok ()) "vulnerabilityreports" "t").fsWritten = some true :=
  ⟨rfl, rfl, rfl, rfl⟩

/-- Counterexample to C3: with both destinations configured and the
object-store upload failing, the filesystem write is never attempted and
only the object-store failure is reported. -/
theorem claim3_counterexample :
    c3env.s3Enabled = true ∧ c3env.fsEnabled = true ∧
    (collectResourcePaged c3env "vulnerabilityreports" "t").s3Attempted = true ∧
    (collectResourcePaged c3env "vulnerabilityreports" "t").fsAttempted = false ∧
    (collectResourcePaged c3env "vulnerabilityreports" "t").result =
      Except.error "failed to upload latest vulnerabilityreports: boom" :=
  ⟨rfl, rfl, rfl, rfl, rfl⟩

/-- Claim C3 as amended: the object-store write is attempted first; if it
fails, the collector returns that failure immediately and the filesystem
write is not attempted.  Only when the object-store write succeeds or the
object store is not configured is the filesystem write attempted, and its
failure is then the one reported. -/
theorem claim3_amended_sink_order (env : CollectEnv) (name doc : String)
    (count : Nat) (st : PageLoopSt) :
    (env.s3Enabled = true → ∀ e, env.s3Put = Except.error e →
      (sinkPhase env name doc count st).result =
        Except.error ("failed to upload latest " ++ name ++ ": " ++ e) ∧
      (sinkPhase env name doc count st).fsAttempted = false) ∧
    ((env.s3Enabled = false ∨ env.s3Put = Except.ok ()) →
      env.fsEnabled = true →
      (sinkPhase env name doc count st).fsAttempted = true ∧
      (∀ e, env.fsWrite = Except.error e →
        (sinkPhase env name doc count st).result =
          Except.error ("failed to write FS output: " ++ e)) ∧
      (env.fsWrite = Except.ok () →
        (sinkPhase env name doc count st).result = Except.ok count ∧
        (sinkPhase env name doc count st).fsWritten = some doc)) := by
  constructor
  · intro hs3 e herr
    unfold sinkPhase
    rw [hs3, herr]
    exact ⟨rfl, rfl⟩
  · intro hok hfs
    have hred : sinkPhase env name doc count st =
        fsPhase env doc count env.s3Enabled
          (if env.s3Enabled then some doc else none) st := by
      unfold sinkPhase
      rcases hok with h | h
      · rw [h]
        rfl
      · rw [h]
        cases hs : env.s3Enabled <;> rfl
    rw [hred]
    unfold fsPhase
    rw [hfs]
    cases hw : env.fsWrite with
    | error e' =>
      refine ⟨rfl, ?_, ?_⟩
      · intro e he
        cases he
        rfl
      · intro he
        exact Except.noConfusion he
    | ok u =>
      refine ⟨rfl, ?_, ?_⟩
      · intro e he
        exact Except.noConfusion he
      · intro _
        exact ⟨rfl, rfl⟩

/-- Witness for the amended C3: with the object store disabled and a
failing filesystem write, the filesystem write is attempted and its failure
reported. -/
theorem claim3_amended_sink_order_witness :
    (sinkPhase c3envFsFail "r" "d" 0 initLoopSt).fsAttempted = true ∧
    (sinkPhase c3envFsFail "r" "d" 0 initLoopSt).result =
      Except.error ("failed to write FS output: " ++ "disk full") :=
  have h := (claim3_amended_sink_order c3envFsFail "r" "d" 0 initLoopSt).2
    (Or.inl rfl) rfl
  ⟨h.1, h.2.1 "disk full" rfl⟩

/-- Claim C10: when the resource-not-found error arrives on a continuation
request, after a first page already yielded items, the collector still
returns count 0 with no error, attempts no sink write, and the items
already streamed to the scratch file are discarded with it. -/
theorem claim10_midpagination_notfound (page1 : List Item) (k fuel : Nat)
    (ps : Int) (s3e : Bool) (s3p : Except String Unit) (fse : Bool)
    (fsw : Except String Unit) (name ts : String) :
    (collectResourcePaged (midEnv page1 k fuel ps s3e s3p fse fsw) name
      ts).result = Except.ok 0 ∧
    (collectResourcePaged (midEnv page1 k fuel ps s3e s3p fse fsw) name
      ts).s3Attempted = false ∧
    (collectResourcePaged (midEnv page1 k fuel ps s3e s3p fse fsw) name
      ts).fsAttempted = false ∧
    (collectResourcePaged (midEnv page1 k fuel ps s3e s3p fse fsw) name
      ts).s3Written = none ∧
    (collectResourcePaged (midEnv page1 k fuel ps s3e s3p fse fsw) name
      ts).fsWritten = none ∧
    (collectResourcePaged (midEnv page1 k fuel ps s3e s3p fse fsw) name
      ts).retrieved = page1 := by
  refine ⟨?_, ?_, ?_, ?_, ?_, ?_⟩ <;>
    simp [collectResourcePaged, midEnv, pagedLoop, midNotFoundPlane, initLoopSt]

/-- The catalog's resource-type identifiers are pairwise distinct. -/
theorem reportResources_names_nodup :
    (reportResources.map (fun r => r.Name)).Nodup := by decide

/-- Membership in the published collection stats is exactly success of the
corresponding resource's collection. -/
theorem stats_mem_iff (envOf : ReportResource → CollectEnv)
    (cluster ts now : String) (r : ReportResource)
    (hr : r ∈ reportResources) (c : Nat) :
    ((r.Name, c) ∈
        (collectAndUploadAll envOf cluster ts now).index.collectionStats) ↔
      (collectResourcePaged (envOf r) r.Name ts).result = Except.ok c := by
  unfold collectAndUploadAll
  simp only [List.filterMap_map, List.mem_filterMap]
  constructor
  · rintro ⟨r', hr', hp⟩
    cases hres : (collectResourcePaged (envOf r') r'.Name ts).result with
    | error e =>
      rw [Function.comp_apply, hres] at hp
      cases hp
    | ok c' =>
      rw [Function.comp_apply, hres] at hp
      simp only [Option.some.injEq, Prod.mk.injEq] at hp
      obtain ⟨hname, hc⟩ := hp
      have hrr : r' = r :=
        List.inj_on_of_nodup_map reportResources_names_nodup hr' hr hname
      rw [← hrr, hres, hc]
  · intro hres
    refine ⟨r, hr, ?_⟩
    rw [Function.comp_apply, hres]

/-- Claim C5: a resource type the control plane reports as nonexistent
yields count 0 and no error, wherever in the run the not-found answer
arrives; any other list failure yields an error that names the resource
type, and the orchestrator then records no count for that resource. -/
theorem claim5_notfound_vs_error (env : CollectEnv) (name ts : String) :
    (∀ st, pagedLoop env.plane (effLimit env.pageSize) env.fuel none
        initLoopSt = LoopExit.earlyZero st →
      (collectResourcePaged env name ts).result = Except.ok 0) ∧
    (∀ st msg, pagedLoop env.plane (effLimit env.pageSize) env.fuel none
        initLoopSt = LoopExit.failed st msg →
      (collectResourcePaged env name ts).result =
        Except.error ("failed to list " ++ name ++ ": " ++ msg)) ∧
    (∀ envOf : ReportResource → CollectEnv, ∀ cluster ts2 now : String,
      ∀ r ∈ reportResources, ∀ e,
      (collectResourcePaged (envOf r) r.Name ts2).result = Except.error e →
      ∀ c : Nat, (r.Name, c) ∉
        (collectAndUploadAll envOf cluster ts2 now).index.collectionStats) := by
  refine ⟨?_, ?_, ?_⟩
  · intro st hloop
    simp only [collectResourcePaged, hloop]
  · intro st msg hloop
    simp only [collectResourcePaged, hloop]
  · intro envOf cluster ts2 now r hr e herr c hmem
    rw [stats_mem_iff envOf cluster ts2 now r hr c, herr] at hmem
    cases hmem

/-- Witness for C5: a not-found plane gives count 0; a failing plane gives
the resource-naming error and the orchestrator records no count. -/
theorem claim5_notfound_vs_error_witness :
    (collectResourcePaged (testEnv notFoundPlane 1) "vulnerabilityreports"
      "t").result = Except.ok 0 ∧
    (collectResourcePaged (testEnv (failPlane "boom") 1)
      "rbacassessmentreports" "t").result =
      Except.error ("failed to list " ++ "rbacassessmentreports" ++ ": " ++
        "boom") ∧
    (resVuln.Name, 3) ∉
      (collectAndUploadAll (fun _ => testEnv (failPlane "boom") 1) "dev" "t"
        "n").index.collectionStats :=
  ⟨(claim5_notfound_vs_error (testEnv notFoundPlane 1) "vulnerabilityreports"
      "t").1
    { emit := { body := docHeader, firstItem := true, totalCount := 0 },
      requests := [((20 : Int), (none : ContinueTok))], retrieved := [] } rfl,
   (claim5_notfound_vs_error (testEnv (failPlane "boom") 1)
      "rbacassessmentreports" "t").2.1
    { emit := { body := docHeader, firstItem := true, totalCount := 0 },
      requests := [((20 : Int), (none : ContinueTok))], retrieved := [] }
    "boom" rfl,
   (claim5_notfound_vs_error (testEnv notFoundPlane 1) "x" "t").2.2
    (fun _ => testEnv (failPlane "boom") 1) "dev" "t" "n" resVuln (by decide)
    ("failed to list " ++ "vulnerabilityreports" ++ ": " ++ "boom") rfl 3⟩

/-- Claim C4: the orchestrator runs the collector for every catalog entry
in catalog order whatever the per-resource outcomes are, the published
index's stats contain a resource's count exactly when its collection
succeeded, and the cycle returns without error even when resources
failed. -/
theorem claim4_cycle_isolation (envOf : ReportResource → CollectEnv)
    (cluster ts now : String) :
    (collectAndUploadAll envOf cluster ts now).outcomes.map Prod.fst =
      reportResources.map (fun r => r.Name) ∧
    (collectAndUploadAll envOf cluster ts now).result = Except.ok () ∧
    ∀ r ∈ reportResources, ∀ c : Nat,
      ((r.Name, c) ∈
          (collectAndUploadAll envOf cluster ts now).index.collectionStats ↔
        (collectResourcePaged (envOf r) r.Name ts).result = Except.ok c) := by
  refine ⟨?_, rfl, ?_⟩
  · unfold collectAndUploadAll
    simp only [List.map_map]
    rfl
  · intro r hr c
    exact stats_mem_iff envOf cluster ts now r hr c

/-- Witness for C4: a concrete cycle in which every resource succeeds with
three items records the first resource's count. -/
theorem claim4_cycle_isolation_witness :
    ((resVuln.Name, 3) ∈
        (collectAndUploadAll (fun _ => testEnv (storePlane c1items) 4) "dev"
          "t" "n").index.collectionStats ↔
      (collectResourcePaged (testEnv (storePlane c1items) 4) resVuln.Name
        "t").result = Except.ok 3) :=
  (claim4_cycle_isolation (fun _ => testEnv (storePlane c1items) 4) "dev" "t"
    "n").2.2 resVuln (by decide) 3

/-- Claim C6: `loadConfig` takes the fatal exit exactly when neither the
object-store bucket nor the filesystem root is configured; otherwise it
returns the configuration with the documented defaults (interval 5 minutes,
page size 20, region eu-west-1, path base vuln, cluster dev). -/
theorem claim6_load_config (env : GoEnv) :
    (loadConfig env = none ↔
      (env.get "S3_BUCKET" = "" ∧ env.get "FS_OUTPUT_DIR" = "")) ∧
    (∀ cfg, loadConfig env = some cfg →
      (env.get "SYNC_INTERVAL" = "" → cfg.SyncInterval = 300000000000) ∧
      (env.get "PAGE_SIZE" = "" → cfg.PageSize = 20) ∧
      (env.get "AWS_REGION" = "" → cfg.AWSRegion = "eu-west-1") ∧
      (env.get "S3_PREFIX" = "" → cfg.S3KeyBase = "vuln") ∧
      (env.get "CLUSTER_NAME" = "" → cfg.ClusterName = "dev")) := by
  constructor
  · by_cases hB : env.get "S3_BUCKET" = "" <;>
      by_cases hF : env.get "FS_OUTPUT_DIR" = "" <;>
      simp [loadConfig, getEnv, hB, hF]
  · intro cfg hcfg
    simp only [loadConfig] at hcfg
    split at hcfg
    · exact Option.noConfusion hcfg
    · have hc := Option.some.inj hcfg
      rw [← hc]
      refine ⟨?_, ?_, ?_, ?_, ?_⟩ <;> intro h <;>
        simp only [getEnv, h, ne_eq, not_true_eq_false, if_false,
          reduceIte] <;> decide

/-- Witness for C6: an empty environment is fatal; a filesystem-only
environment yields the defaulted configuration. -/
theorem claim6_load_config_witness :
    loadConfig envNoSink = none ∧
    loadConfig envFsOnly = some cfgFsOnly ∧
    cfgFsOnly.SyncInterval = 300000000000 ∧ cfgFsOnly.PageSize = 20 ∧
    cfgFsOnly.AWSRegion = "eu-west-1" ∧ cfgFsOnly.S3KeyBase = "vuln" ∧
    cfgFsOnly.ClusterName = "dev" :=
  ⟨(claim6_load_config envNoSink).1.mpr ⟨rfl, rfl⟩,
   rfl,
   ((claim6_load_config envFsOnly).2 cfgFsOnly rfl).1 rfl,
   ((claim6_load_config envFsOnly).2 cfgFsOnly rfl).2.1 rfl,
   ((claim6_load_config envFsOnly).2 cfgFsOnly rfl).2.2.1 rfl,
   ((claim6_load_config envFsOnly).2 cfgFsOnly rfl).2.2.2.1 rfl,
   ((claim6_load_config envFsOnly).2 cfgFsOnly rfl).2.2.2.2 rfl⟩

/-- Claim C7: two cycles over the same source state produce byte-for-byte
identical per-resource documents and identical counts, whatever the two
cycles' timestamps are; the published index can differ only in its
lastUpdated field. -/
theorem claim7_idempotent (envOf : ReportResource → CollectEnv)
    (cluster ts1 ts2 now1 now2 : String) :
    (collectAndUploadAll envOf cluster ts1 now1).outcomes =
      (collectAndUploadAll envOf cluster ts2 now2).outcomes ∧
    (collectAndUploadAll envOf cluster ts1 now1).index.cluster =
      (collectAndUploadAll envOf cluster ts2 now2).index.cluster ∧
    (collectAndUploadAll envOf cluster ts1 now1).index.collectionStats =
      (collectAndUploadAll envOf cluster ts2 now2).index.collectionStats ∧
    (collectAndUploadAll envOf cluster ts1 now1).result =
      (collectAndUploadAll envOf cluster ts2 now2).result := by
  have hcol : ∀ e : CollectEnv, ∀ n : String,
      collectResourcePaged e n ts1 = collectResourcePaged e n ts2 :=
    fun e n => rfl
  refine ⟨?_, rfl, ?_, rfl⟩
  · unfold collectAndUploadAll
    simp only [hcol]
  · unfold collectAndUploadAll
    simp only [hcol]

/-- The ticker loop runs one cycle per tick until the first stop event,
numbering cycles from `k`. -/
theorem schedLoop_range (events : List SchedEvent) :
    ∀ o : Nat → Except String Unit, ∀ k : Nat,
    schedLoop o k events =
      (List.range (events.takeWhile isTick).length).map (fun i => k + i) := by
  induction events with
  | nil => intro o k; rfl
  | cons e es ih =>
    intro o k
    cases e with
    | tick =>
      simp only [schedLoop, List.takeWhile_cons, isTick, if_true,
        List.length_cons]
      rw [ih o (k + 1), List.range_succ_eq_map, List.map_cons, List.map_map,
        Nat.add_zero]
      congr 1
      apply List.map_congr_left
      intro i _
      simp only [Function.comp_apply]
      omega
    | signal => simp [schedLoop, isTick]
    | ctxDone => simp [schedLoop, isTick]

/-- Claim C8: the scheduler runs cycle 0 synchronously at startup before
its loop, then exactly one cycle per tick, in order and one at a time (the
cycle trace is the sequential list `range`); the first non-tick event —
termination signal or context cancellation — ends the trace with no further
cycle; and the trace does not depend on the cycles' outcomes, so a cycle
failure never makes the scheduler exit. -/
theorem claim8_scheduler (o1 o2 : Nat → Except String Unit)
    (events : List SchedEvent) :
    schedulerCycles o1 events =
      List.range ((events.takeWhile isTick).length + 1) ∧
    schedulerCycles o1 events = schedulerCycles o2 events := by
  constructor
  · unfold schedulerCycles
    rw [schedLoop_range events o1 1, List.range_succ_eq_map]
    congr 1
    apply List.map_congr_left
    intro i _
    omega
  · unfold schedulerCycles
    rw [schedLoop_range events o1 1, schedLoop_range events o2 1]

end Theorems

end TrivyExporter
